import Mathlib

/-!
Verification of the porter publish pipeline (`pkg/porter/publish.go`).

The pure reference-string machinery (the docker/distribution `reference`
package and the go-digest validation it calls) is embedded at the character
level; the effectful pipeline `Publish` is embedded as a function over an
oracle environment supplying the results of every external collaborator
call, returning the pipeline result together with the trace of performed
actions (in execution order).
-/

namespace Porter

/-! ## Character-level utilities -/

/-- ASCII lower-casing of a single character, as `strings.ToLower` does on ASCII. -/
def lowerChar (c : Char) : Char :=
  if 'A' ≤ c && c ≤ 'Z' then Char.ofNat (c.toNat + 32) else c

/-- Split a character list at every occurrence of `sep` (like `strings.Split`).
Always returns a nonempty list of (possibly empty) chunks. -/
def splitChar (sep : Char) : List Char → List (List Char)
  | [] => [[]]
  | c :: rest =>
    match splitChar sep rest with
    | h :: t => if c = sep then [] :: h :: t else (c :: h) :: t
    | [] => [[c]]

/-- Join chunks with `sep` between them; inverse of `splitChar`. -/
def joinChar (sep : Char) : List (List Char) → List Char
  | [] => []
  | [x] => x
  | x :: y :: xs => x ++ sep :: joinChar sep (y :: xs)

/-- `[a-z0-9]` -/
def isLowerAlnum (c : Char) : Bool :=
  ('a' ≤ c && c ≤ 'z') || ('0' ≤ c && c ≤ '9')

/-- `[A-Za-z]` -/
def isAsciiLetter (c : Char) : Bool :=
  ('a' ≤ c && c ≤ 'z') || ('A' ≤ c && c ≤ 'Z')

/-- `[0-9]` -/
def isDigitC (c : Char) : Bool := '0' ≤ c && c ≤ '9'

/-- `[A-Za-z0-9]` -/
def isAlnumAny (c : Char) : Bool := isAsciiLetter c || isDigitC c

/-- `[a-f0-9]` (the go-digest hex alphabet) -/
def isLowerHex (c : Char) : Bool := isDigitC c || ('a' ≤ c && c ≤ 'f')

/-- `[A-Fa-f0-9]` (the reference-regexp hex alphabet) -/
def isHexAny (c : Char) : Bool := isDigitC c || ('a' ≤ c && c ≤ 'f') || ('A' ≤ c && c ≤ 'F')

/-- `strings.HasPrefix` on our string model. -/
def strStartsWith (p s : String) : Bool := List.isPrefixOf p.data s.data

/-- Whether `p` occurs as a contiguous substring of `l` (used to state that an
error message does not mention a swallowed cause). -/
def containsSub (p l : List Char) : Bool :=
  (List.range (l.length + 1)).any fun i => List.isPrefixOf p (l.drop i)

/-! ## The docker/distribution reference grammar

Embeds the anchored `ReferenceRegexp` from `github.com/docker/distribution/reference`
(`regexp.go`), used by both `reference.Parse` (line 192 of publish.go via
`rewriteImageWithDigest`) and `reference.ParseNormalizedNamed` (line 204 via
`parseOCIReference`):

  reference  := name (":" tag)? ("@" digest)?
  name       := (domain "/")? path-component ("/" path-component)*
  path-comp  := [a-z0-9]+ ((?:[._]|__|[-]*) [a-z0-9]+)*
  domain     := domain-comp ("." domain-comp)* (":" port)?
  tag        := [\w][\w.-]{0,127}
  digest     := algorithm ":" [A-Fa-f0-9]{32,}
-/

/-- A path component (`nameComponent` in regexp.go): the separator between two
alphanumeric runs is `.`, `_`, `__` or a run of `-`.  Equivalently: every
maximal non-alphanumeric block is one of those, captured by local pair/triple
conditions. -/
def ncChar (c : Char) : Bool :=
  isLowerAlnum c || c = '.' || c = '_' || c = '-'

def ncPairsOK : List Char → Bool
  | a :: b :: rest =>
    (isLowerAlnum a || isLowerAlnum b || (a = b && (a = '-' || a = '_'))) &&
      ncPairsOK (b :: rest)
  | _ => true

def ncTriplesOK : List Char → Bool
  | a :: b :: c :: rest =>
    !(a = '_' && b = '_' && c = '_') && ncTriplesOK (b :: c :: rest)
  | _ => true

def isNameComponent (l : List Char) : Bool :=
  !l.isEmpty && l.all ncChar && isLowerAlnum (l.headD '-') && isLowerAlnum (l.getLastD '-')
    && ncPairsOK l && ncTriplesOK l

/-- `domainComponent` in regexp.go: `[A-Za-z0-9]|[A-Za-z0-9][A-Za-z0-9-]*[A-Za-z0-9]`. -/
def isDomainComponent (l : List Char) : Bool :=
  !l.isEmpty && l.all (fun c => isAlnumAny c || c = '-')
    && isAlnumAny (l.headD '-') && isAlnumAny (l.getLastD '-')

/-- `DomainRegexp`: dot-separated domain components with an optional numeric port. -/
def isDomainB (l : List Char) : Bool :=
  match splitChar ':' l with
  | [host] => (splitChar '.' host).all isDomainComponent
  | [host, port] =>
    (splitChar '.' host).all isDomainComponent && !port.isEmpty && port.all isDigitC
  | _ => false

/-- `TagRegexp`: `[\w][\w.-]{0,127}`. -/
def tagPatOK (l : List Char) : Bool :=
  match l with
  | [] => false
  | c :: rest =>
    (isAlnumAny c || c = '_') &&
      rest.all (fun d => isAlnumAny d || d = '_' || d = '.' || d = '-') &&
      rest.length ≤ 127

/-- The algorithm part of `DigestRegexp`:
`[A-Za-z][A-Za-z0-9]*(?:[-_+.][A-Za-z][A-Za-z0-9]*)*`. -/
def isAlgoSep (c : Char) : Bool := c = '-' || c = '_' || c = '+' || c = '.'

def algoPairsOK : List Char → Bool
  | a :: b :: rest => (!(isAlgoSep a) || isAsciiLetter b) && algoPairsOK (b :: rest)
  | _ => true

def algoPatOK (l : List Char) : Bool :=
  match l with
  | [] => false
  | c :: _ =>
    isAsciiLetter c && l.all (fun d => isAlnumAny d || isAlgoSep d)
      && algoPairsOK l && !(isAlgoSep (l.getLastD '-'))

/-- `DigestRegexp` as used inside `ReferenceRegexp`: `algorithm ":" hex{32,}`. -/
def digestPatOK (l : List Char) : Bool :=
  match splitChar ':' l with
  | [a, h] => algoPatOK a && h.length ≥ 32 && h.all isHexAny
  | _ => false

/-- `digest.Parse` validation from go-digest, for the supported algorithms:
`algorithm ":" encoded` where the algorithm is sha256/sha384/sha512 and the
encoded part is lowercase hex of exactly the algorithm's length. -/
def validDigestB (l : List Char) : Bool :=
  match splitChar ':' l with
  | [a, e] =>
    (a = "sha256".data && e.length = 64 && e.all isLowerHex) ||
    (a = "sha384".data && e.length = 96 && e.all isLowerHex) ||
    (a = "sha512".data && e.length = 128 && e.all isLowerHex)
  | _ => false

/-- Split the `name[:tag]` part: the tag separator is the (single) colon after
the last `/`, exactly as the anchored regexp resolves it, since neither a path
component nor a tag may contain a colon and a domain colon must be followed by
a `/`.  Returns `none` when more than one colon follows the last `/`. -/
def tagSplit (base : List Char) : Option (List Char × Option (List Char)) :=
  match splitChar ':' ((splitChar '/' base).getLastD []) with
  | [_] => some (base, none)
  | [_, t] => some (base.take (base.length - (t.length + 1)), some t)
  | _ => none

/-- `NameRegexp` over the full name part. -/
def namePatOK (nm : List Char) : Bool :=
  match splitChar '/' nm with
  | [c] => isNameComponent c
  | c :: rest => rest.all isNameComponent && (isNameComponent c || isDomainB c)
  | [] => false

/-- Match `name[:tag]` and attach an (already pattern-checked) digest part. -/
def matchBase (base dg : List Char) : Option (List Char × List Char × List Char) :=
  match tagSplit base with
  | some (nm, none) => if namePatOK nm then some (nm, [], dg) else none
  | some (nm, some t) => if tagPatOK t && namePatOK nm then some (nm, t, dg) else none
  | none => none

/-- Full-anchored match of `ReferenceRegexp`, returning the `(name, tag, digest)`
capture groups (empty list = group absent).  `@` occurs in no group, so it
splits the reference at most once. -/
def matchRefL (l : List Char) : Option (List Char × List Char × List Char) :=
  match splitChar '@' l with
  | [base] => matchBase base []
  | [base, d] => if digestPatOK d then matchBase base d else none
  | _ => none

/-- The result of `reference.Parse`: the four capture fields of a docker
reference.  `Name()` of a named reference is `domain "/" path` (or `path`
when no domain was captured). -/
structure ParsedRef where
  domain : String
  path : String
  tag : String
  digest : String
deriving DecidableEq, Repr

/-- `Named.Name()` of a parsed reference. -/
def refName (r : ParsedRef) : String :=
  if r.domain = "" then r.path else r.domain ++ "/" ++ r.path

/-- `Reference.String()` of a parsed reference. -/
def refString (r : ParsedRef) : String :=
  refName r ++ (if r.tag = "" then "" else ":" ++ r.tag)
    ++ (if r.digest = "" then "" else "@" ++ r.digest)

/-- Split the matched name into the `(domain, path)` capture groups: the
greedy regexp captures the first `/`-component as domain exactly when it
matches `DomainRegexp` and a path follows. -/
def mkParsed (nm tg dg : List Char) : ParsedRef :=
  match splitChar '/' nm with
  | c :: c2 :: rest =>
    if isDomainB c then
      { domain := String.mk c, path := String.mk (joinChar '/' (c2 :: rest)),
        tag := String.mk tg, digest := String.mk dg }
    else
      { domain := "", path := String.mk nm, tag := String.mk tg, digest := String.mk dg }
  | _ => { domain := "", path := String.mk nm, tag := String.mk tg, digest := String.mk dg }

/-- `reference.Parse` (reference/reference.go): anchored regexp match, name
length bound, then `digest.Parse` validation of the digest part. -/
def referenceParseL (l : List Char) : Except String ParsedRef :=
  match matchRefL l with
  | some (nm, tg, dg) =>
    if nm.length > 255 then
      .error "repository name must not be more than 255 characters"
    else if dg = [] then
      .ok (mkParsed nm tg dg)
    else if validDigestB dg then
      .ok (mkParsed nm tg dg)
    else
      .error "invalid checksum digest format"
  | none =>
    if l = [] then .error "repository name must have at least one component"
    else if (matchRefL (l.map lowerChar)).isSome then .error "repository name must be lowercase"
    else .error "invalid reference format"

/-- `reference.Parse` on a string. -/
def referenceParse (s : String) : Except String ParsedRef := referenceParseL s.data

/-- `splitDockerDomain` (reference/normalize.go): pick the explicit domain only
when the part before the first `/` looks like a registry host, defaulting to
`docker.io`, mapping the legacy `index.docker.io`, and prefixing `library/` for
single-component official-registry names. -/
def splitDockerDomain (name : List Char) : List Char × List Char :=
  let df := "docker.io".data
  let dr :=
    match splitChar '/' name with
    | pre :: c2 :: rest =>
      if !(pre.contains '.') && !(pre.contains ':') && pre ≠ "localhost".data then
        (df, name)
      else
        (pre, joinChar '/' (c2 :: rest))
    | _ => (df, name)
  let dr := if dr.1 = "index.docker.io".data then (df, dr.2) else dr
  if dr.1 = df && !(dr.2.contains '/') then (dr.1, "library/".data ++ dr.2) else dr

/-- The rejected-identifier check of `ParseNormalizedNamed`: a bare 64-char hex
string is not a repository name. -/
def isIdentifierHex (l : List Char) : Bool := l.length = 64 && l.all isLowerHex

/-- `reference.ParseNormalizedNamed` (reference/normalize.go): reject bare
identifiers, normalize the domain, check the remote name for lowercase, then
run `reference.Parse` on the domain-qualified form. -/
def parseNormalizedNamed (s : String) : Except String ParsedRef :=
  if isIdentifierHex s.data then
    .error ("invalid repository name (" ++ s ++ "), cannot specify 64-byte hexadecimal strings")
  else
    let dr := splitDockerDomain s.data
    let remoteName := (splitChar ':' dr.2).headD []
    if remoteName.map lowerChar ≠ remoteName then
      .error "invalid reference format: repository name must be lowercase"
    else
      referenceParseL (dr.1 ++ '/' :: dr.2)

/-- `parseOCIReference` (publish.go lines 203-205): delegates to
`reference.ParseNormalizedNamed`. -/
def parseOCIReference (ociRef : String) : Except String ParsedRef :=
  parseNormalizedNamed ociRef

/-- `(*Porter).rewriteImageWithDigest` (publish.go lines 191-201): parse with
the non-normalizing `reference.Parse`, require a named reference, and return
`Name() "@" digest` with the digest string taken verbatim. -/
def rewriteImageWithDigest (InvocationImage : String) (digest : String) : Except String String :=
  match referenceParse InvocationImage with
  | .error e => .error ("unable to parse docker image: " ++ e)
  | .ok ref =>
    if refName ref = "" then .error "had an issue with the docker image"
    else .ok (refName ref ++ "@" ++ digest)

/-! ## The publish pipeline

`(*Porter).Publish` (publish.go lines 46-116) and its helpers are embedded as
functions over an oracle environment `PublishEnv` that supplies the result of
every external collaborator call (manifest loading, docker client, registry,
filesystem, bundle parsing, cnab-to-oci fixup/push).  Each function returns
its result together with the ordered trace of actions it performed. -/

/-- `PublishOptions` (publish.go lines 25-28): the manifest file path from the
embedded `bundleFileOptions` plus the insecure-registry flag. -/
structure PublishOptions where
  file : String
  insecureRegistry : Bool

/-- `remotes.ResolverConfig`, reduced to the state `createResolver` threads
into it: the list of insecure registries. -/
structure ResolverConfig where
  insecureRegistries : List String
deriving DecidableEq, Repr

/-- `(*Porter).createResolver` (publish.go lines 118-120): builds the one
resolver configuration from the docker config file and the given insecure
registries. -/
def createResolver (insecureRegistries : List String) : ResolverConfig :=
  { insecureRegistries := insecureRegistries }

/-- One observable action of a publish run, in execution order. -/
inductive PubAction where
  | loadManifestFrom (file : String)
  | loadManifest
  | ensureBundleIsUpToDate
  | getDockerClient
  | outLine (line : String)
  | imagePush (image : String)
  | streamPushOutput
  | distributionInspect (image : String)
  | buildBundle (taggedImage : String) (digest : String)
  | readFile (path : String)
  | parseBundle
  | fixupBundle (ref : String) (cfg : ResolverConfig)
  | pushBundle (ref : String) (cfg : ResolverConfig)
deriving DecidableEq, Repr

/-- Actions that perform network I/O against a registry. -/
def isNetworkCall : PubAction → Bool
  | .imagePush _ => true
  | .streamPushOutput => true
  | .distributionInspect _ => true
  | .fixupBundle _ _ => true
  | .pushBundle _ _ => true
  | _ => false

/-- Actions that go through the cnab-to-oci resolver (relocation and the final
descriptor push). -/
def touchesResolver : PubAction → Bool
  | .fixupBundle _ _ => true
  | .pushBundle _ _ => true
  | _ => false

/-- Oracle results of every external collaborator call made by `Publish`.
`Option String` fields are `some err` when the call fails, `none` on success;
`Except` fields carry the successful value. -/
structure PublishEnv where
  loadManifestFromErr : String → Option String
  loadManifestErr : Option String
  ensureBundleErr : Option String
  getDockerClientErr : Option String
  manifestImage : String
  manifestBundleTag : String
  parseRepoInfoErr : Option String
  encodeAuthErr : Option String
  imagePushErr : Option String
  streamErr : Option String
  distInspect : Except String String
  buildBundleErr : Option String
  readFileResult : Except String String
  parseBundleErr : String → Option String
  fixupErr : Option String
  pushResult : Except String String

/-- The byte content handed to `bundle.ParseReader`: the read file on success,
and the nil buffer when `ReadFile` failed (its error is never checked at
publish.go line 84). -/
def readContent : Except String String → String
  | .ok b => b
  | .error _ => ""

/-- `(*Porter).publishInvocationImage` (publish.go lines 146-189): parse the
manifest image, resolve repository info and auth, push the image, stream the
push output (mapping a "denied"-prefixed stream error to the authentication
failure message), then take the digest from the registry's distribution
inspection. -/
def publishInvocationImage (env : PublishEnv) : Except String String × List PubAction :=
  match parseOCIReference env.manifestImage with
  | .error e => (.error e, [])
  | .ok _ =>
    match env.parseRepoInfoErr with
    | some e => (.error e, [])
    | none =>
      match env.encodeAuthErr with
      | some e => (.error e, [])
      | none =>
        match env.imagePushErr with
        | some e => (.error ("docker push failed: " ++ e), [.imagePush env.manifestImage])
        | none =>
          match env.streamErr with
          | some m =>
            if strStartsWith "denied" m then
              (.error ("docker push authentication failed: " ++ m),
                [.imagePush env.manifestImage, .streamPushOutput])
            else
              (.error ("failed to stream docker push stdout: " ++ m),
                [.imagePush env.manifestImage, .streamPushOutput])
          | none =>
            match env.distInspect with
            | .error e =>
              (.error ("unable to inspect docker image: " ++ e),
                [.imagePush env.manifestImage, .streamPushOutput,
                  .distributionInspect env.manifestImage])
            | .ok d =>
              (.ok d,
                [.imagePush env.manifestImage, .streamPushOutput,
                  .distributionInspect env.manifestImage])

/-- The body of `(*Porter).Publish` after the manifest has been loaded
(publish.go lines 57-115): ensure the bundle is up to date, get a docker
client, push the invocation image, pin its reference with the returned digest,
regenerate bundle.json, read and parse it (the `ReadFile` error is discarded,
exactly as at line 84), validate the bundle tag, build the one resolver
configuration, fix up the bundle and push it. -/
def publishAfterLoad (opts : PublishOptions) (env : PublishEnv) :
    Except String Unit × List PubAction :=
  match env.ensureBundleErr with
  | some e => (.error e, [.ensureBundleIsUpToDate])
  | none =>
    match env.getDockerClientErr with
    | some e => (.error e, [.ensureBundleIsUpToDate, .getDockerClient])
    | none =>
      let t0 : List PubAction :=
        [.ensureBundleIsUpToDate, .getDockerClient, .outLine "Pushing CNAB invocation image..."]
      let pii := publishInvocationImage env
      let t1 := t0 ++ pii.2
      match pii.1 with
      | .error e => (.error ("unable to push CNAB invocation image: " ++ e), t1)
      | .ok digest =>
        match rewriteImageWithDigest env.manifestImage digest with
        | .error e => (.error ("unable to update invocation image reference: %s: " ++ e), t1)
        | .ok taggedImage =>
          let t2 := t1 ++ [.outLine "\nGenerating CNAB bundle.json...",
            .buildBundle taggedImage digest]
          match env.buildBundleErr with
          | some e => (.error ("unable to generate CNAB bundle.json: " ++ e), t2)
          | none =>
            let t3 := t2 ++ [.readFile "cnab/bundle.json", .parseBundle]
            match env.parseBundleErr (readContent env.readFileResult) with
            | some e => (.error ("unable to load CNAB bundle: " ++ e), t3)
            | none =>
              if env.manifestBundleTag = "" then
                (.error "porter.yaml must specify a `tag` value for this bundle", t3)
              else
                match parseOCIReference env.manifestBundleTag with
                | .error e =>
                  (.error ("invalid bundle tag reference. expected value is REGISTRY/bundle:tag: "
                    ++ e), t3)
                | .ok ref =>
                  let insecureRegistries : List String :=
                    if opts.insecureRegistry then [ref.domain] else []
                  let resolverConfig := createResolver insecureRegistries
                  let t4 := t3 ++ [.fixupBundle (refString ref) resolverConfig]
                  match env.fixupErr with
                  | some e => (.error e, t4)
                  | none =>
                    let t5 := t4 ++ [.pushBundle (refString ref) resolverConfig]
                    match env.pushResult with
                    | .error e => (.error e, t5)
                    | .ok d =>
                      (.ok (), t5 ++ [.outLine ("Bundle tag " ++ refString ref
                        ++ " pushed successfully, with digest \"" ++ d ++ "\"\n")])

/-- `(*Porter).Publish` (publish.go lines 46-116): load the manifest from the
explicit file when one is set, else from the conventional default location,
then run the rest of the pipeline. -/
def Publish (opts : PublishOptions) (env : PublishEnv) :
    Except String Unit × List PubAction :=
  if opts.file ≠ "" then
    match env.loadManifestFromErr opts.file with
    | some e => (.error e, [.loadManifestFrom opts.file])
    | none =>
      let rest := publishAfterLoad opts env
      (rest.1, .loadManifestFrom opts.file :: rest.2)
  else
    match env.loadManifestErr with
    | some e => (.error e, [.loadManifest])
    | none =>
      let rest := publishAfterLoad opts env
      (rest.1, .loadManifest :: rest.2)

/-- Modelled from the spec: the result of `bundleFileOptions.Validate` (its
code is not under src/) — on success it yields the manifest file path,
resolved from an explicitly given path or from the conventional default
location when one exists, and the empty string when neither resolves. -/
structure ValidateEnv where
  bundleFileValidate : Except String String

/-- The error message of `(*PublishOptions).Validate` (publish.go line 38)
when no manifest file was found. -/
def manifestNotFoundMsg : String :=
  "could not find porter.yaml in the current directory, make sure you are in the right directory or specify the porter manifest with --file"

/-- `(*PublishOptions).Validate` (publish.go lines 31-42): run the embedded
`bundleFileOptions` validation, then fail when no manifest file was found,
with the remediation message pointing the user at the manifest flag. -/
def PublishOptionsValidate (opts : PublishOptions) (venv : ValidateEnv) :
    Except String PublishOptions :=
  match venv.bundleFileValidate with
  | .error e => .error e
  | .ok f =>
    if f = "" then .error manifestNotFoundMsg
    else .ok { opts with file := f }

/-- Modelled from the spec: the publish command wiring (not under src/) runs
option validation before the pipeline and must fail fast, so a validation
failure reaches no pipeline stage. -/
def runPublishCommand (opts : PublishOptions) (venv : ValidateEnv) (env : PublishEnv) :
    Except String Unit × List PubAction :=
  match PublishOptionsValidate opts venv with
  | .error e => (.error e, [])
  | .ok opts2 => Publish opts2 env

/-! ## The fixup progress display -/

/-- The event kinds of `remotes.FixupEvent` from cnab-to-oci:
copy-image-start, copy-image-end, and the remaining kind (progress). -/
inductive FixupEventType where
  | copyImageStart
  | copyImageEnd
  | progress
deriving DecidableEq, Repr

/-- `remotes.FixupEvent`, reduced to the fields `displayEvent` reads. -/
structure FixupEvent where
  eventType : FixupEventType
  sourceImage : String
  error : Option String

/-- `(*Porter).displayEvent` (publish.go lines 122-133): the lines written to
`p.Out` for one fixup event. -/
def displayEvent (ev : FixupEvent) : List String :=
  match ev.eventType with
  | .copyImageStart => ["Starting to copy image " ++ ev.sourceImage ++ "...\n"]
  | .copyImageEnd =>
    match ev.error with
    | some e => ["Failed to copy image " ++ ev.sourceImage ++ ": " ++ e ++ "\n"]
    | none => ["Completed image " ++ ev.sourceImage ++ " copy\n"]
  | .progress => []

/-! ## Concrete environments for witnesses and counterexamples -/

/-- A valid sha256 digest used as the registry's answer in concrete runs. -/
def digestA : String :=
  "sha256:aaaaaaaaaaaaaaaaaaaaaaaaaaaaaaaaaaaaaaaaaaaaaaaaaaaaaaaaaaaaaaaa"

/-- A valid sha256 digest used as the final bundle push answer. -/
def digestB : String :=
  "sha256:bbbbbbbbbbbbbbbbbbbbbbbbbbbbbbbbbbbbbbbbbbbbbbbbbbbbbbbbbbbbbbbb"

/-- A concrete environment in which every collaborator call succeeds:
manifest image `myapp:v1`, bundle tag `registry.example.com/bundles/myapp:v1`,
push digest `digestA`, final push digest `digestB`. -/
def okEnv : PublishEnv where
  loadManifestFromErr := fun _ => none
  loadManifestErr := none
  ensureBundleErr := none
  getDockerClientErr := none
  manifestImage := "myapp:v1"
  manifestBundleTag := "registry.example.com/bundles/myapp:v1"
  parseRepoInfoErr := none
  encodeAuthErr := none
  imagePushErr := none
  streamErr := none
  distInspect := .ok digestA
  buildBundleErr := none
  readFileResult := .ok "bundle-json-content"
  parseBundleErr := fun _ => none
  fixupErr := none
  pushResult := .ok digestB

/-! ## Properties of the splitting combinators -/

theorem splitChar_ne_nil (sep : Char) (l : List Char) : splitChar sep l ≠ [] := by
  induction l with
  | nil => simp [splitChar]
  | cons c rest ih =>
    cases h : splitChar sep rest with
    | nil => exact absurd h ih
    | cons a t =>
      simp only [splitChar, h]
      split <;> simp

theorem splitChar_not_mem (sep : Char) (l : List Char) :
    ∀ x ∈ splitChar sep l, sep ∉ x := by
  induction l with
  | nil =>
    intro x hx
    simp [splitChar] at hx
    simp [hx]
  | cons c rest ih =>
    intro x hx
    cases h : splitChar sep rest with
    | nil => exact absurd h (splitChar_ne_nil sep rest)
    | cons a t =>
      simp only [splitChar, h] at hx
      have iha : sep ∉ a := ih a (by rw [h]; exact List.mem_cons_self a t)
      by_cases hc : c = sep
      · rw [if_pos hc] at hx
        rcases List.mem_cons.mp hx with hx | hx
        · subst hx; simp
        · exact ih x (by rw [h]; exact hx)
      · rw [if_neg hc] at hx
        rcases List.mem_cons.mp hx with hx | hx
        · subst hx
          intro hm
          rcases List.mem_cons.mp hm with hm | hm
          · exact hc hm.symm
          · exact iha hm
        · exact ih x (by rw [h]; exact List.mem_cons_of_mem a hx)

theorem joinChar_splitChar (sep : Char) (l : List Char) :
    joinChar sep (splitChar sep l) = l := by
  induction l with
  | nil => rfl
  | cons c rest ih =>
    cases h : splitChar sep rest with
    | nil => exact absurd h (splitChar_ne_nil sep rest)
    | cons a t =>
      rw [h] at ih
      simp only [splitChar, h]
      by_cases hc : c = sep
      · rw [if_pos hc, hc]
        show joinChar sep ([] :: a :: t) = sep :: rest
        simp only [joinChar, List.nil_append]
        rw [ih]
      · rw [if_neg hc]
        cases t with
        | nil =>
          show joinChar sep [c :: a] = c :: rest
          simp only [joinChar] at ih ⊢
          rw [ih]
        | cons b t2 =>
          show joinChar sep ((c :: a) :: b :: t2) = c :: rest
          simp only [joinChar] at ih ⊢
          rw [← ih]
          simp

theorem splitChar_of_not_mem (sep : Char) (l : List Char) (h : sep ∉ l) :
    splitChar sep l = [l] := by
  induction l with
  | nil => rfl
  | cons c rest ih =>
    have hc : c ≠ sep := fun e => h (e ▸ List.mem_cons_self c rest)
    have hr : sep ∉ rest := fun m => h (List.mem_cons_of_mem c m)
    simp [splitChar, ih hr, hc]

theorem splitChar_append (sep : Char) (l1 l2 : List Char) (h : sep ∉ l1) :
    splitChar sep (l1 ++ sep :: l2) = l1 :: splitChar sep l2 := by
  induction l1 with
  | nil =>
    simp only [List.nil_append, splitChar]
    cases hs : splitChar sep l2 with
    | nil => exact absurd hs (splitChar_ne_nil sep l2)
    | cons a t => simp
  | cons c r ih =>
    have hc : c ≠ sep := fun e => h (e ▸ List.mem_cons_self c r)
    have hr : sep ∉ r := fun m => h (List.mem_cons_of_mem c m)
    simp [splitChar, ih hr, hc]

theorem splitChar_singleton (sep : Char) (l x : List Char)
    (h : splitChar sep l = [x]) : x = l ∧ sep ∉ l := by
  have hx := splitChar_not_mem sep l x (by rw [h]; exact List.mem_cons_self x [])
  have he : x = l := by
    have hj := joinChar_splitChar sep l
    rwa [h] at hj
  exact ⟨he, he ▸ hx⟩

theorem glastD_mem {α : Type} (l : List α) (d : α) (h : l ≠ []) :
    l.getLastD d ∈ l := by
  induction l generalizing d with
  | nil => exact absurd rfl h
  | cons a t ih =>
    rw [List.getLastD_cons]
    cases t with
    | nil => simp [List.getLastD]
    | cons b t2 => exact List.mem_cons_of_mem a (ih a (by simp))

/-! ## Properties of the reference grammar -/

theorem nameComponent_all (l : List Char) (h : isNameComponent l = true) :
    ∀ c ∈ l, ncChar c = true := by
  unfold isNameComponent at h
  simp only [Bool.and_eq_true, List.all_eq_true] at h
  exact h.1.1.1.1.2

theorem nc_no_colon (l : List Char) (h : isNameComponent l = true) : ':' ∉ l := by
  intro hm
  have hc := nameComponent_all l h ':' hm
  exact absurd hc (by decide)

theorem namePat_last_nc (nm : List Char) (h : namePatOK nm = true) :
    isNameComponent ((splitChar '/' nm).getLastD []) = true := by
  rcases hs : splitChar '/' nm with _ | ⟨c, _ | ⟨c2, r2⟩⟩
  · exact absurd hs (splitChar_ne_nil '/' nm)
  · simp only [namePatOK, hs] at h
    simpa [List.getLastD] using h
  · simp only [namePatOK, hs, Bool.and_eq_true, List.all_eq_true] at h
    rw [List.getLastD_cons]
    exact h.1 _ (glastD_mem (c2 :: r2) c (by simp))

theorem namePat_ne_nil (nm : List Char) (h : namePatOK nm = true) : nm ≠ [] := by
  intro he
  subst he
  exact absurd h (by decide)

theorem tagSplit_sub (base nm : List Char) (t? : Option (List Char))
    (h : tagSplit base = some (nm, t?)) : nm ⊆ base := by
  unfold tagSplit at h
  split at h
  · simp only [Option.some.injEq, Prod.mk.injEq] at h
    rw [← h.1]
    exact fun x hx => hx
  · simp only [Option.some.injEq, Prod.mk.injEq] at h
    rw [← h.1]
    exact List.take_subset _ _
  · exact absurd h (by simp)

theorem matchBase_ok (base d0 nm tg dg : List Char)
    (h : matchBase base d0 = some (nm, tg, dg)) :
    namePatOK nm = true ∧ dg = d0 ∧ nm ⊆ base := by
  unfold matchBase at h
  split at h
  · rename_i nm0 heq
    split at h
    · rename_i hn
      simp only [Option.some.injEq, Prod.mk.injEq] at h
      obtain ⟨h1, _, h3⟩ := h
      exact ⟨h1 ▸ hn, h3.symm, h1 ▸ tagSplit_sub base nm0 none heq⟩
    · exact absurd h (by simp)
  · rename_i nm0 t heq
    split at h
    · rename_i hn
      simp only [Bool.and_eq_true] at hn
      simp only [Option.some.injEq, Prod.mk.injEq] at h
      obtain ⟨h1, _, h3⟩ := h
      exact ⟨h1 ▸ hn.2, h3.symm, h1 ▸ tagSplit_sub base nm0 (some t) heq⟩
    · exact absurd h (by simp)
  · exact absurd h (by simp)

theorem matchRefL_ok (l nm tg dg : List Char)
    (h : matchRefL l = some (nm, tg, dg)) :
    namePatOK nm = true ∧ '@' ∉ nm ∧ (dg = [] ∨ digestPatOK dg = true) := by
  unfold matchRefL at h
  split at h
  · rename_i base heq
    obtain ⟨h1, h2, h3⟩ := matchBase_ok base [] nm tg dg h
    refine ⟨h1, fun hm => ?_, .inl h2⟩
    exact splitChar_not_mem '@' l base
      (by rw [heq]; exact List.mem_cons_self base []) (h3 hm)
  · rename_i base d heq
    split at h
    · rename_i hd
      obtain ⟨h1, h2, h3⟩ := matchBase_ok base d nm tg dg h
      refine ⟨h1, fun hm => ?_, .inr (h2 ▸ hd)⟩
      exact splitChar_not_mem '@' l base
        (by rw [heq]; exact List.mem_cons_self base [d]) (h3 hm)
    · exact absurd h (by simp)
  · exact absurd h (by simp)

theorem referenceParseL_ok (l : List Char) (r : ParsedRef)
    (h : referenceParseL l = .ok r) :
    ∃ nm tg dg, matchRefL l = some (nm, tg, dg) ∧ r = mkParsed nm tg dg ∧
      nm.length ≤ 255 ∧ (dg = [] ∨ validDigestB dg = true) := by
  unfold referenceParseL at h
  split at h
  · rename_i nm tg dg heq
    split at h
    · exact absurd h (by simp)
    · rename_i hlen
      split at h
      · rename_i hdg
        simp only [Except.ok.injEq] at h
        exact ⟨nm, tg, dg, heq, h.symm, by omega, .inl hdg⟩
      · rename_i hdg
        split at h
        · rename_i hv
          simp only [Except.ok.injEq] at h
          exact ⟨nm, tg, dg, heq, h.symm, by omega, .inr hv⟩
        · exact absurd h (by simp)
  · split at h
    · exact absurd h (by simp)
    · split at h
      · exact absurd h (by simp)
      · exact absurd h (by simp)

theorem mkParsed_tag (nm tg dg : List Char) :
    (mkParsed nm tg dg).tag = String.mk tg := by
  unfold mkParsed
  split
  · split <;> rfl
  · rfl

theorem mkParsed_digest (nm tg dg : List Char) :
    (mkParsed nm tg dg).digest = String.mk dg := by
  unfold mkParsed
  split
  · split <;> rfl
  · rfl

theorem refName_mkParsed (nm tg dg : List Char) :
    refName (mkParsed nm tg dg) = String.mk nm := by
  rcases hs : splitChar '/' nm with _ | ⟨c, _ | ⟨c2, r2⟩⟩
  · exact absurd hs (splitChar_ne_nil '/' nm)
  · simp [mkParsed, hs, refName]
  · by_cases hd : isDomainB c = true
    · have hcne : c ≠ [] := by
        intro he
        rw [he] at hd
        exact absurd hd (by decide)
      have hj : c ++ '/' :: joinChar '/' (c2 :: r2) = nm := by
        have hjs := joinChar_splitChar '/' nm
        rw [hs] at hjs
        simpa [joinChar] using hjs
      simp only [mkParsed, hs, hd, if_true, refName]
      rw [if_neg (show ¬(String.mk c = "") from fun hh => hcne (congrArg String.data hh))]
      have hl : (c ++ ['/']) ++ joinChar '/' (c2 :: r2) = nm := by
        rw [← hj]
        simp
      show String.mk ((c ++ ['/']) ++ joinChar '/' (c2 :: r2)) = String.mk nm
      exact congrArg String.mk hl
    · simp [mkParsed, hs, hd, refName]

/-! ## Properties of digest validation -/

theorem validDigest_parts (l : List Char) (h : validDigestB l = true) :
    ∃ a e, splitChar ':' l = [a, e] ∧
      (a = "sha256".data ∨ a = "sha384".data ∨ a = "sha512".data) ∧
      32 ≤ e.length ∧ e.all isLowerHex = true := by
  rcases hsp : splitChar ':' l with _ | ⟨a, _ | ⟨e, _ | ⟨x, rest⟩⟩⟩
  · simp [validDigestB, hsp] at h
  · simp [validDigestB, hsp] at h
  · simp only [validDigestB, hsp, Bool.or_eq_true, Bool.and_eq_true, decide_eq_true_eq] at h
    rcases h with (⟨⟨ha, hl⟩, he⟩ | ⟨⟨ha, hl⟩, he⟩) | ⟨⟨ha, hl⟩, he⟩ <;>
      exact ⟨a, e, rfl, by tauto, by omega, he⟩
  · simp [validDigestB, hsp] at h

theorem lowerHex_hexAny (c : Char) (h : isLowerHex c = true) : isHexAny c = true := by
  unfold isLowerHex at h
  unfold isHexAny
  simp only [Bool.or_eq_true] at h ⊢
  tauto

theorem validDigest_join (l : List Char) (h : validDigestB l = true) :
    ∃ a e, l = a ++ ':' :: e ∧
      (a = "sha256".data ∨ a = "sha384".data ∨ a = "sha512".data) ∧
      32 ≤ e.length ∧ e.all isLowerHex = true := by
  obtain ⟨a, e, hsp, ha, hl, he⟩ := validDigest_parts l h
  refine ⟨a, e, ?_, ha, hl, he⟩
  have hj := joinChar_splitChar ':' l
  rw [hsp] at hj
  simpa [joinChar] using hj.symm

theorem validDigest_no_at (l : List Char) (h : validDigestB l = true) : '@' ∉ l := by
  obtain ⟨a, e, hl, ha, _, he⟩ := validDigest_join l h
  intro hm
  rw [hl] at hm
  rcases List.mem_append.mp hm with hm | hm
  · rcases ha with ha | ha | ha <;> subst ha <;> revert hm <;> decide
  · rcases List.mem_cons.mp hm with hm | hm
    · exact absurd hm (by decide)
    · exact absurd (List.all_eq_true.mp he '@' hm) (by decide)

theorem validDigest_ne_nil (l : List Char) (h : validDigestB l = true) : l ≠ [] := by
  intro he
  subst he
  exact absurd h (by decide)

theorem validDigest_pat (l : List Char) (h : validDigestB l = true) :
    digestPatOK l = true := by
  obtain ⟨a, e, hsp, ha, hl, he⟩ := validDigest_parts l h
  unfold digestPatOK
  rw [hsp]
  simp only [Bool.and_eq_true, decide_eq_true_eq]
  refine ⟨⟨?_, by omega⟩, ?_⟩
  · rcases ha with ha | ha | ha <;> subst ha <;> decide
  · exact List.all_eq_true.mpr fun c hc => lowerHex_hexAny c (List.all_eq_true.mp he c hc)

/-! ## The pin/parse round trip -/

/-- Inversion of a successful `referenceParse`: the input matched the anchored
reference regexp, the result is `mkParsed` of the captures, the name respects
`NameRegexp`, the length bound, and contains no `@`. -/
theorem referenceParse_ok_inv (s : String) (r : ParsedRef)
    (h : referenceParse s = .ok r) :
    ∃ nm tg dg, matchRefL s.data = some (nm, tg, dg) ∧ r = mkParsed nm tg dg ∧
      namePatOK nm = true ∧ '@' ∉ nm ∧ nm.length ≤ 255 ∧ refName r = String.mk nm := by
  obtain ⟨nm, tg, dg, hm, hr, hlen, hdg⟩ := referenceParseL_ok s.data r h
  obtain ⟨hname, hat, _⟩ := matchRefL_ok s.data nm tg dg hm
  exact ⟨nm, tg, dg, hm, hr, hname, hat, hlen, hr ▸ refName_mkParsed nm tg dg⟩

/-- A successful `reference.Parse` always yields a named reference (the name
capture group of `ReferenceRegexp` cannot be empty). -/
theorem referenceParse_named (s : String) (r : ParsedRef)
    (h : referenceParse s = .ok r) : refName r ≠ "" := by
  obtain ⟨nm, _, _, _, _, hname, _, _, hrn⟩ := referenceParse_ok_inv s r h
  rw [hrn]
  intro hemp
  exact namePat_ne_nil nm hname (congrArg String.data hemp)

/-- What `rewriteImageWithDigest` returns on any parseable image: the parsed
repository name, `@`, and the digest argument verbatim — no digest
validation happens. -/
theorem rewriteImageWithDigest_ok (img d : String) (r : ParsedRef)
    (h : referenceParse img = .ok r) :
    rewriteImageWithDigest img d = .ok (refName r ++ "@" ++ d) := by
  have hne := referenceParse_named img r h
  unfold rewriteImageWithDigest
  rw [h]
  simp [hne]

/-- Parsing `name "@" digest` back with `reference.Parse` recovers the same
name split and the supplied digest, with no tag, whenever the digest is valid. -/
theorem referenceParse_roundtrip (s d : String) (r : ParsedRef)
    (hp : referenceParse s = .ok r) (hd : validDigestB d.data = true) :
    referenceParse (refName r ++ "@" ++ d) = .ok ⟨r.domain, r.path, "", d⟩ := by
  obtain ⟨nm, tg, dg, hm, hr, hname, hat, hlen, hrn⟩ := referenceParse_ok_inv s r hp
  have hdata : (refName r ++ "@" ++ d).data = nm ++ '@' :: d.data := by
    rw [hrn]
    rw [String.data_append, String.data_append]
    simp
  show referenceParseL (refName r ++ "@" ++ d).data = _
  rw [hdata]
  have hnat : '@' ∉ d.data := validDigest_no_at d.data hd
  have hsp : splitChar '@' (nm ++ '@' :: d.data) = [nm, d.data] := by
    rw [splitChar_append '@' nm d.data hat, splitChar_of_not_mem '@' d.data hnat]
  have hts : tagSplit nm = some (nm, none) := by
    unfold tagSplit
    have hnc : ':' ∉ (splitChar '/' nm).getLastD [] :=
      nc_no_colon _ (namePat_last_nc nm hname)
    rw [splitChar_of_not_mem ':' _ hnc]
  have hmb : matchBase nm d.data = some (nm, [], d.data) := by
    unfold matchBase
    rw [hts]
    simp only [hname, if_true]
  have hmr : matchRefL (nm ++ '@' :: d.data) = some (nm, [], d.data) := by
    unfold matchRefL
    rw [hsp]
    simp only [validDigest_pat d.data hd, if_true, hmb]
  unfold referenceParseL
  rw [hmr]
  simp only [validDigest_ne_nil d.data hd, hd, if_true, ite_self]
  rw [if_neg (by omega : ¬ nm.length > 255)]
  rw [hr]
  unfold mkParsed
  split
  · split <;> rfl
  · rfl

/-! ## Pipeline helper lemmas -/

/-- A fully successful invocation-image push: the digest is the one reported
by the distribution inspection, after the push and stream actions. -/
theorem publishInvocationImage_ok (env : PublishEnv) (pref : ParsedRef) (d : String)
    (hp : parseOCIReference env.manifestImage = .ok pref)
    (h1 : env.parseRepoInfoErr = none) (h2 : env.encodeAuthErr = none)
    (h3 : env.imagePushErr = none) (h4 : env.streamErr = none)
    (h5 : env.distInspect = .ok d) :
    publishInvocationImage env =
      (.ok d, [.imagePush env.manifestImage, .streamPushOutput,
        .distributionInspect env.manifestImage]) := by
  unfold publishInvocationImage
  rw [hp, h1, h2, h3, h4, h5]

/-- When the manifest load succeeds, a publish run is the load action followed
by the rest of the pipeline. -/
theorem Publish_ok_load (opts : PublishOptions) (env : PublishEnv)
    (hload : (if opts.file ≠ "" then env.loadManifestFromErr opts.file
      else env.loadManifestErr) = none) :
    Publish opts env =
      ((publishAfterLoad opts env).1,
        (if opts.file ≠ "" then PubAction.loadManifestFrom opts.file
          else PubAction.loadManifest) :: (publishAfterLoad opts env).2) := by
  unfold Publish
  by_cases hf : opts.file = ""
  · simp only [hf, ne_eq, not_true_eq_false, if_false, ite_false] at hload ⊢
    rw [hload]
  · simp only [hf, ne_eq, not_false_eq_true, if_true, ite_true] at hload ⊢
    rw [hload]

/-- `touchesResolver` pushed through an `if`. -/
theorem touchesResolver_ite (c : Prop) [Decidable c] (a b : PubAction) :
    touchesResolver (if c then a else b)
      = if c then touchesResolver a else touchesResolver b :=
  apply_ite touchesResolver c a b

/-! ## Claims -/

/-- C1, counterexample: the claim fails at its own example input.  Pinning
`myapp:v1` with the digest string `sha256:aaa` yields the string
`myapp@sha256:aaa`, but parsing that result fails (the digest part is
malformed), so pin-then-parse does not yield a reference for arbitrary digest
strings; moreover with a valid digest, `parseOCIReference` domain-qualifies
the repository name to `docker.io/library/myapp`, so the parsed reference does
not preserve the un-normalized name `myapp`. -/
theorem c1_counterexample :
    rewriteImageWithDigest "myapp:v1" "sha256:aaa" = .ok "myapp@sha256:aaa" ∧
    parseOCIReference "myapp@sha256:aaa" = .error "invalid reference format" ∧
    referenceParse "myapp@sha256:aaa" = .error "invalid reference format" ∧
    parseOCIReference ("myapp@" ++ digestA) =
      .ok ⟨"docker.io", "library/myapp", "", digestA⟩ ∧
    refName ⟨"docker.io", "library/myapp", "", digestA⟩ ≠ "myapp" :=
  ⟨rfl, rfl, rfl, rfl, by decide⟩

/-- C1, amended: for every image reference string accepted by the
non-normalizing `reference.Parse` (the parser the digest rewriter itself
uses) that carries a tag, and every digest string accepted by digest
validation, pin succeeds and returns `name@digest` with the repository name
preserved un-normalized, and parsing the result with the same parser yields a
reference with no tag, digest equal to the supplied digest, and the
repository name unchanged. -/
theorem c1_amended_pin_parse (s d : String) (r : ParsedRef)
    (hp : referenceParse s = .ok r) (_htag : r.tag ≠ "")
    (hd : validDigestB d.data = true) :
    rewriteImageWithDigest s d = .ok (refName r ++ "@" ++ d) ∧
    referenceParse (refName r ++ "@" ++ d) = .ok ⟨r.domain, r.path, "", d⟩ ∧
    refName (⟨r.domain, r.path, "", d⟩ : ParsedRef) = refName r :=
  ⟨rewriteImageWithDigest_ok s d r hp, referenceParse_roundtrip s d r hp hd, rfl⟩

theorem c1_amended_pin_parse_witness :
    rewriteImageWithDigest "myapp:v1" digestA =
      .ok (refName ⟨"", "myapp", "v1", ""⟩ ++ "@" ++ digestA) ∧
    referenceParse (refName ⟨"", "myapp", "v1", ""⟩ ++ "@" ++ digestA) =
      .ok ⟨"", "myapp", "", digestA⟩ ∧
    refName (⟨"", "myapp", "", digestA⟩ : ParsedRef) = refName ⟨"", "myapp", "v1", ""⟩ :=
  c1_amended_pin_parse "myapp:v1" digestA ⟨"", "myapp", "v1", ""⟩ rfl (by decide) (by decide)

/-- C10: the digest rewriter validates nothing about its digest argument —
for every image string that parses as a named reference and every digest
string whatsoever, it returns the repository name, `@`, and the digest
verbatim; in particular with the empty digest the output `myapp@` is not a
parseable reference under either parser. -/
theorem c10_pin_no_digest_validation :
    (∀ img d r, referenceParse img = .ok r →
        rewriteImageWithDigest img d = .ok (refName r ++ "@" ++ d)) ∧
    rewriteImageWithDigest "myapp:v1" "" = .ok "myapp@" ∧
    rewriteImageWithDigest "myapp:v1" "not a digest" = .ok "myapp@not a digest" ∧
    parseOCIReference "myapp@" = .error "invalid reference format" ∧
    referenceParse "myapp@" = .error "invalid reference format" :=
  ⟨fun img d r h => rewriteImageWithDigest_ok img d r h, rfl, rfl, rfl, rfl⟩

theorem c10_pin_no_digest_validation_witness :
    rewriteImageWithDigest "registry.example.com/bundles/myapp:v1" "oops" =
      .ok (refName ⟨"registry.example.com", "bundles/myapp", "v1", ""⟩ ++ "@" ++ "oops") :=
  c10_pin_no_digest_validation.1 "registry.example.com/bundles/myapp:v1" "oops"
    ⟨"registry.example.com", "bundles/myapp", "v1", ""⟩ rfl

/-- C2, counterexample: in a run whose manifest declares an empty bundle tag
and whose earlier stages all succeed, the pipeline does fail with the
configuration error, but the invocation-image push — a network call — has
already occurred, so "no network call occurs during that run" is false. -/
theorem c2_counterexample :
    (Publish ⟨"porter.yaml", false⟩ { okEnv with manifestBundleTag := "" }).1
      = .error "porter.yaml must specify a `tag` value for this bundle" ∧
    PubAction.imagePush "myapp:v1"
      ∈ (Publish ⟨"porter.yaml", false⟩ { okEnv with manifestBundleTag := "" }).2 ∧
    isNetworkCall (PubAction.imagePush "myapp:v1") = true :=
  ⟨rfl, by decide, rfl⟩

/-- C2, amended: with an empty bundle tag, a run whose stages up to the
descriptor parse succeed fails at the bundle-tag validation with the
configuration error message, and no resolver operation (neither the
relocation nor the final descriptor push) occurs; the invocation-image push,
which precedes the validation, has already occurred. -/
theorem c2_amended_empty_tag (opts : PublishOptions) (env : PublishEnv)
    (pref rr : ParsedRef) (d : String)
    (hload : (if opts.file ≠ "" then env.loadManifestFromErr opts.file
      else env.loadManifestErr) = none)
    (hens : env.ensureBundleErr = none)
    (hcli : env.getDockerClientErr = none)
    (hpi : parseOCIReference env.manifestImage = .ok pref)
    (hri : env.parseRepoInfoErr = none)
    (hau : env.encodeAuthErr = none)
    (hip : env.imagePushErr = none)
    (hst : env.streamErr = none)
    (hdi : env.distInspect = .ok d)
    (hrp : referenceParse env.manifestImage = .ok rr)
    (hbb : env.buildBundleErr = none)
    (hpb : env.parseBundleErr (readContent env.readFileResult) = none)
    (htag : env.manifestBundleTag = "") :
    (Publish opts env).1 = .error "porter.yaml must specify a `tag` value for this bundle" ∧
    (∀ a ∈ (Publish opts env).2, touchesResolver a = false) ∧
    PubAction.imagePush env.manifestImage ∈ (Publish opts env).2 := by
  have hpii := publishInvocationImage_ok env pref d hpi hri hau hip hst hdi
  have hrw := rewriteImageWithDigest_ok env.manifestImage d rr hrp
  rw [Publish_ok_load opts env hload]
  unfold publishAfterLoad
  simp only [hens, hcli, hpii, hrw, hbb, hpb, htag]
  simp only [List.forall_mem_cons, touchesResolver_ite]
  simp [touchesResolver, ite_self]

theorem c2_amended_empty_tag_witness :
    (Publish ⟨"porter.yaml", false⟩ { okEnv with manifestBundleTag := "" }).1
      = .error "porter.yaml must specify a `tag` value for this bundle" ∧
    (∀ a ∈ (Publish ⟨"porter.yaml", false⟩ { okEnv with manifestBundleTag := "" }).2,
      touchesResolver a = false) ∧
    PubAction.imagePush "myapp:v1"
      ∈ (Publish ⟨"porter.yaml", false⟩ { okEnv with manifestBundleTag := "" }).2 :=
  c2_amended_empty_tag ⟨"porter.yaml", false⟩ { okEnv with manifestBundleTag := "" }
    ⟨"docker.io", "library/myapp", "v1", ""⟩ ⟨"", "myapp", "v1", ""⟩ digestA
    rfl rfl rfl rfl rfl rfl rfl rfl rfl rfl rfl rfl rfl

/-- C3, counterexample: the propagation policy is violated twice.  When the
descriptor file read fails, its error (`read exploded`) is discarded — the
returned error wraps only the subsequent parse error and does not contain the
read error at all; and when relocation fails, its error is returned to the
caller verbatim, with no stage context added. -/
theorem c3_counterexample :
    ((Publish ⟨"porter.yaml", false⟩
        { okEnv with
          readFileResult := .error "read exploded"
          parseBundleErr := fun c => if c = "" then some "unexpected end of JSON input" else none }).1
      = .error "unable to load CNAB bundle: unexpected end of JSON input" ∧
      containsSub "read exploded".data
        "unable to load CNAB bundle: unexpected end of JSON input".data = false) ∧
    (Publish ⟨"porter.yaml", false⟩ { okEnv with fixupErr := some "fixup network failure" }).1
      = .error "fixup network failure" :=
  ⟨⟨rfl, by decide⟩, rfl⟩

/-- C3, amended: errors from the invocation-image push and the descriptor
parse are wrapped with stage context preserving the cause; but a failure of
the descriptor file read is discarded entirely (only the subsequent parse
error is reported, wrapped as "unable to load CNAB bundle"), and the
relocation and final-push errors are propagated to the caller verbatim,
preserving the original error as the whole message but without stage
context. -/
theorem c3_amended_propagation :
    (∀ (opts : PublishOptions) (env : PublishEnv) (pref rr : ParsedRef) (d er p : String),
      (if opts.file ≠ "" then env.loadManifestFromErr opts.file
        else env.loadManifestErr) = none →
      env.ensureBundleErr = none → env.getDockerClientErr = none →
      parseOCIReference env.manifestImage = .ok pref →
      env.parseRepoInfoErr = none → env.encodeAuthErr = none →
      env.imagePushErr = none → env.streamErr = none →
      env.distInspect = .ok d →
      referenceParse env.manifestImage = .ok rr →
      env.buildBundleErr = none →
      env.readFileResult = .error er →
      env.parseBundleErr "" = some p →
      (Publish opts env).1 = .error ("unable to load CNAB bundle: " ++ p)) ∧
    (∀ (opts : PublishOptions) (env : PublishEnv) (pref rr ref : ParsedRef) (d e : String),
      (if opts.file ≠ "" then env.loadManifestFromErr opts.file
        else env.loadManifestErr) = none →
      env.ensureBundleErr = none → env.getDockerClientErr = none →
      parseOCIReference env.manifestImage = .ok pref →
      env.parseRepoInfoErr = none → env.encodeAuthErr = none →
      env.imagePushErr = none → env.streamErr = none →
      env.distInspect = .ok d →
      referenceParse env.manifestImage = .ok rr →
      env.buildBundleErr = none →
      env.parseBundleErr (readContent env.readFileResult) = none →
      env.manifestBundleTag ≠ "" →
      parseOCIReference env.manifestBundleTag = .ok ref →
      env.fixupErr = some e →
      (Publish opts env).1 = .error e) ∧
    (∀ (opts : PublishOptions) (env : PublishEnv) (pref rr ref : ParsedRef) (d e : String),
      (if opts.file ≠ "" then env.loadManifestFromErr opts.file
        else env.loadManifestErr) = none →
      env.ensureBundleErr = none → env.getDockerClientErr = none →
      parseOCIReference env.manifestImage = .ok pref →
      env.parseRepoInfoErr = none → env.encodeAuthErr = none →
      env.imagePushErr = none → env.streamErr = none →
      env.distInspect = .ok d →
      referenceParse env.manifestImage = .ok rr →
      env.buildBundleErr = none →
      env.parseBundleErr (readContent env.readFileResult) = none →
      env.manifestBundleTag ≠ "" →
      parseOCIReference env.manifestBundleTag = .ok ref →
      env.fixupErr = none →
      env.pushResult = .error e →
      (Publish opts env).1 = .error e) ∧
    (∀ (opts : PublishOptions) (env : PublishEnv) (pref : ParsedRef) (m : String),
      (if opts.file ≠ "" then env.loadManifestFromErr opts.file
        else env.loadManifestErr) = none →
      env.ensureBundleErr = none → env.getDockerClientErr = none →
      parseOCIReference env.manifestImage = .ok pref →
      env.parseRepoInfoErr = none → env.encodeAuthErr = none →
      env.imagePushErr = none →
      env.streamErr = some m →
      strStartsWith "denied" m = false →
      (Publish opts env).1 =
        .error ("unable to push CNAB invocation image: "
          ++ ("failed to stream docker push stdout: " ++ m))) := by
  refine ⟨?_, ?_, ?_, ?_⟩
  · intro opts env pref rr d er p hload hens hcli hpi hri hau hip hst hdi hrp hbb hrf hpb
    have hpii := publishInvocationImage_ok env pref d hpi hri hau hip hst hdi
    have hrw := rewriteImageWithDigest_ok env.manifestImage d rr hrp
    rw [Publish_ok_load opts env hload]
    unfold publishAfterLoad
    simp [hens, hcli, hpii, hrw, hbb, hrf, readContent, hpb]
  · intro opts env pref rr ref d e hload hens hcli hpi hri hau hip hst hdi hrp hbb hpb htag hpt hfx
    have hpii := publishInvocationImage_ok env pref d hpi hri hau hip hst hdi
    have hrw := rewriteImageWithDigest_ok env.manifestImage d rr hrp
    rw [Publish_ok_load opts env hload]
    unfold publishAfterLoad
    simp [hens, hcli, hpii, hrw, hbb, hpb, htag, hpt, hfx]
  · intro opts env pref rr ref d e hload hens hcli hpi hri hau hip hst hdi hrp hbb hpb htag hpt hfx hpu
    have hpii := publishInvocationImage_ok env pref d hpi hri hau hip hst hdi
    have hrw := rewriteImageWithDigest_ok env.manifestImage d rr hrp
    rw [Publish_ok_load opts env hload]
    unfold publishAfterLoad
    simp [hens, hcli, hpii, hrw, hbb, hpb, htag, hpt, hfx, hpu]
  · intro opts env pref m hload hens hcli hpi hri hau hip hst hden
    rw [Publish_ok_load opts env hload]
    unfold publishAfterLoad publishInvocationImage
    simp [hens, hcli, hpi, hri, hau, hip, hst, hden]

theorem c3_amended_propagation_witness :
    (Publish ⟨"porter.yaml", false⟩
        { okEnv with
          readFileResult := .error "read exploded"
          parseBundleErr := fun c => if c = "" then some "unexpected end of JSON input" else none }).1
      = .error ("unable to load CNAB bundle: " ++ "unexpected end of JSON input") ∧
    (Publish ⟨"porter.yaml", false⟩ { okEnv with fixupErr := some "fixup network failure" }).1
      = .error "fixup network failure" ∧
    (Publish ⟨"porter.yaml", false⟩ { okEnv with pushResult := .error "push refused" }).1
      = .error "push refused" ∧
    (Publish ⟨"porter.yaml", false⟩ { okEnv with streamErr := some "stream cut" }).1
      = .error ("unable to push CNAB invocation image: "
        ++ ("failed to stream docker push stdout: " ++ "stream cut")) :=
  ⟨c3_amended_propagation.1 ⟨"porter.yaml", false⟩ _
      ⟨"docker.io", "library/myapp", "v1", ""⟩ ⟨"", "myapp", "v1", ""⟩ digestA
      "read exploded" "unexpected end of JSON input"
      rfl rfl rfl rfl rfl rfl rfl rfl rfl rfl rfl rfl rfl,
   c3_amended_propagation.2.1 ⟨"porter.yaml", false⟩ _
      ⟨"docker.io", "library/myapp", "v1", ""⟩ ⟨"", "myapp", "v1", ""⟩
      ⟨"registry.example.com", "bundles/myapp", "v1", ""⟩ digestA "fixup network failure"
      rfl rfl rfl rfl rfl rfl rfl rfl rfl rfl rfl rfl (by decide) rfl rfl,
   c3_amended_propagation.2.2.1 ⟨"porter.yaml", false⟩ _
      ⟨"docker.io", "library/myapp", "v1", ""⟩ ⟨"", "myapp", "v1", ""⟩
      ⟨"registry.example.com", "bundles/myapp", "v1", ""⟩ digestA "push refused"
      rfl rfl rfl rfl rfl rfl rfl rfl rfl rfl rfl rfl (by decide) rfl rfl rfl,
   c3_amended_propagation.2.2.2 ⟨"porter.yaml", false⟩ _
      ⟨"docker.io", "library/myapp", "v1", ""⟩ "stream cut"
      rfl rfl rfl rfl rfl rfl rfl rfl rfl⟩

/-- C4, code bug: `b, err := p.Config.FileSystem.ReadFile(...)` at publish.go
line 84 is immediately followed by `bun, err := bundle.ParseReader(...)` at
line 85 without `err` ever being checked — the read error is discarded.  In a
run where the read fails, the pipeline does not abort with the read stage's
error: it still executes the descriptor parse on the empty buffer and reports
only the parse error. -/
theorem c4_read_error_discarded :
    (Publish ⟨"porter.yaml", false⟩
        { okEnv with
          readFileResult := .error "open cnab/bundle.json: file does not exist"
          parseBundleErr := fun c => if c = "" then some "EOF" else none }).1
      = .error "unable to load CNAB bundle: EOF" ∧
    PubAction.parseBundle ∈ (Publish ⟨"porter.yaml", false⟩
        { okEnv with
          readFileResult := .error "open cnab/bundle.json: file does not exist"
          parseBundleErr := fun c => if c = "" then some "EOF" else none }).2 ∧
    containsSub "file does not exist".data "unable to load CNAB bundle: EOF".data = false :=
  ⟨rfl, by decide, by decide⟩

/-- C5: when the push progress stream ends in a "denied"-prefixed error, the
push step's failure is the distinguished authentication message (wrapped by
the pipeline with the invocation-push stage context), and the run aborts
before any resolver operation — in particular before any relocation. -/
theorem c5_denied_is_auth_error (opts : PublishOptions) (env : PublishEnv)
    (pref : ParsedRef) (m : String)
    (hload : (if opts.file ≠ "" then env.loadManifestFromErr opts.file
      else env.loadManifestErr) = none)
    (hens : env.ensureBundleErr = none)
    (hcli : env.getDockerClientErr = none)
    (hpi : parseOCIReference env.manifestImage = .ok pref)
    (hri : env.parseRepoInfoErr = none)
    (hau : env.encodeAuthErr = none)
    (hip : env.imagePushErr = none)
    (hst : env.streamErr = some m)
    (hden : strStartsWith "denied" m = true) :
    (Publish opts env).1 =
      .error ("unable to push CNAB invocation image: "
        ++ ("docker push authentication failed: " ++ m)) ∧
    (∀ a ∈ (Publish opts env).2, touchesResolver a = false) := by
  rw [Publish_ok_load opts env hload]
  unfold publishAfterLoad publishInvocationImage
  simp only [hens, hcli, hpi, hri, hau, hip, hst, hden]
  refine ⟨by simp, ?_⟩
  simp only [List.forall_mem_cons, touchesResolver_ite]
  simp [touchesResolver, ite_self]

theorem c5_denied_is_auth_error_witness :
    (Publish ⟨"porter.yaml", false⟩
        { okEnv with streamErr := some "denied: requested access to the resource is denied" }).1
      = .error ("unable to push CNAB invocation image: "
        ++ ("docker push authentication failed: "
          ++ "denied: requested access to the resource is denied")) ∧
    (∀ a ∈ (Publish ⟨"porter.yaml", false⟩
        { okEnv with streamErr := some "denied: requested access to the resource is denied" }).2,
      touchesResolver a = false) :=
  c5_denied_is_auth_error ⟨"porter.yaml", false⟩ _
    ⟨"docker.io", "library/myapp", "v1", ""⟩ "denied: requested access to the resource is denied"
    rfl rfl rfl rfl rfl rfl rfl rfl (by decide)

/-- C6: in any run reaching relocation, the insecure-registry set is exactly
the singleton of the bundle tag's domain when the flag is set and empty
otherwise, it is computed once into a single resolver configuration, and
every resolver operation in the run (the relocation and the final descriptor
push) carries exactly that configuration. -/
theorem c6_insecure_registries (opts : PublishOptions) (env : PublishEnv)
    (pref rr ref : ParsedRef) (d : String)
    (hload : (if opts.file ≠ "" then env.loadManifestFromErr opts.file
      else env.loadManifestErr) = none)
    (hens : env.ensureBundleErr = none)
    (hcli : env.getDockerClientErr = none)
    (hpi : parseOCIReference env.manifestImage = .ok pref)
    (hri : env.parseRepoInfoErr = none)
    (hau : env.encodeAuthErr = none)
    (hip : env.imagePushErr = none)
    (hst : env.streamErr = none)
    (hdi : env.distInspect = .ok d)
    (hrp : referenceParse env.manifestImage = .ok rr)
    (hbb : env.buildBundleErr = none)
    (hpb : env.parseBundleErr (readContent env.readFileResult) = none)
    (htag : env.manifestBundleTag ≠ "")
    (hpt : parseOCIReference env.manifestBundleTag = .ok ref) :
    PubAction.fixupBundle (refString ref)
        (createResolver (if opts.insecureRegistry then [ref.domain] else []))
      ∈ (Publish opts env).2 ∧
    (env.fixupErr = none →
      PubAction.pushBundle (refString ref)
          (createResolver (if opts.insecureRegistry then [ref.domain] else []))
        ∈ (Publish opts env).2) ∧
    (∀ a ∈ (Publish opts env).2, touchesResolver a = true →
      a = PubAction.fixupBundle (refString ref)
            (createResolver (if opts.insecureRegistry then [ref.domain] else [])) ∨
      a = PubAction.pushBundle (refString ref)
            (createResolver (if opts.insecureRegistry then [ref.domain] else []))) := by
  have hpii := publishInvocationImage_ok env pref d hpi hri hau hip hst hdi
  have hrw := rewriteImageWithDigest_ok env.manifestImage d rr hrp
  rw [Publish_ok_load opts env hload]
  unfold publishAfterLoad
  simp only [hens, hcli, hpii, hrw, hbb, hpb, htag, hpt]
  rcases hfx : env.fixupErr with _ | e
  · rcases hpu : env.pushResult with e2 | d2
    all_goals refine ⟨by simp, fun _ => by simp, ?_⟩
    all_goals simp only [List.forall_mem_cons, touchesResolver_ite]
    all_goals simp [touchesResolver, ite_self]
  · refine ⟨by simp, fun hc => absurd hc (by simp [hfx]), ?_⟩
    simp only [List.forall_mem_cons, touchesResolver_ite]
    simp [touchesResolver, ite_self]

theorem c6_insecure_registries_witness :
    PubAction.fixupBundle "registry.example.com/bundles/myapp:v1"
        (createResolver ["registry.example.com"])
      ∈ (Publish ⟨"porter.yaml", true⟩ okEnv).2 ∧
    PubAction.pushBundle "registry.example.com/bundles/myapp:v1"
        (createResolver ["registry.example.com"])
      ∈ (Publish ⟨"porter.yaml", true⟩ okEnv).2 := by
  have h := c6_insecure_registries ⟨"porter.yaml", true⟩ okEnv
    ⟨"docker.io", "library/myapp", "v1", ""⟩ ⟨"", "myapp", "v1", ""⟩
    ⟨"registry.example.com", "bundles/myapp", "v1", ""⟩ digestA
    rfl rfl rfl rfl rfl rfl rfl rfl rfl rfl rfl rfl (by decide) rfl
  exact ⟨h.1, h.2.1 rfl⟩

/-- C7: on a successful invocation-image push, the digest the push step
returns is exactly the one reported by the registry's post-push distribution
inspection (taken verbatim from the inspection response, never computed
elsewhere), and an inspection failure makes the push step fail with the
inspection stage context. -/
theorem c7_digest_from_inspection (env : PublishEnv) (pref : ParsedRef)
    (hp : parseOCIReference env.manifestImage = .ok pref)
    (hri : env.parseRepoInfoErr = none)
    (hau : env.encodeAuthErr = none)
    (hip : env.imagePushErr = none)
    (hst : env.streamErr = none) :
    (publishInvocationImage env).1 =
      (match env.distInspect with
       | .ok d => .ok d
       | .error e => .error ("unable to inspect docker image: " ++ e)) := by
  unfold publishInvocationImage
  rw [hp, hri, hau, hip, hst]
  cases hdi : env.distInspect <;> rfl

theorem c7_digest_from_inspection_witness :
    (publishInvocationImage okEnv).1 = .ok digestA ∧
    (publishInvocationImage { okEnv with distInspect := .error "manifest unknown" }).1
      = .error ("unable to inspect docker image: " ++ "manifest unknown") := by
  constructor
  · have h := c7_digest_from_inspection okEnv
      ⟨"docker.io", "library/myapp", "v1", ""⟩ rfl rfl rfl rfl rfl
    simpa using h
  · have h := c7_digest_from_inspection { okEnv with distInspect := .error "manifest unknown" }
      ⟨"docker.io", "library/myapp", "v1", ""⟩ rfl rfl rfl rfl rfl
    simpa using h

/-- C8: the pipeline loads the manifest from the explicitly given file when
one is set and from the conventional default location otherwise; and when
option validation resolves no manifest file, the command fails before any
pipeline stage runs, with the message that tells the user to specify the
manifest with the manifest flag. -/
theorem c8_manifest_loading :
    (∀ (opts : PublishOptions) (env : PublishEnv), opts.file ≠ "" →
      (Publish opts env).2.head? = some (PubAction.loadManifestFrom opts.file)) ∧
    (∀ (opts : PublishOptions) (env : PublishEnv), opts.file = "" →
      (Publish opts env).2.head? = some PubAction.loadManifest) ∧
    (∀ (opts : PublishOptions) (venv : ValidateEnv) (env : PublishEnv),
      venv.bundleFileValidate = .ok "" →
      runPublishCommand opts venv env = (.error manifestNotFoundMsg, [])) ∧
    manifestNotFoundMsg =
      "could not find porter.yaml in the current directory, make sure you are in the right directory or specify the porter manifest with "
        ++ "--file" := by
  refine ⟨?_, ?_, ?_, rfl⟩
  · intro opts env hf
    unfold Publish
    rw [if_pos hf]
    cases env.loadManifestFromErr opts.file <;> simp
  · intro opts env hf
    unfold Publish
    rw [if_neg (by simp [hf])]
    cases env.loadManifestErr <;> simp
  · intro opts venv env hv
    unfold runPublishCommand PublishOptionsValidate
    rw [hv]
    simp

theorem c8_manifest_loading_witness :
    (Publish ⟨"custom.yaml", false⟩ okEnv).2.head?
      = some (PubAction.loadManifestFrom "custom.yaml") ∧
    (Publish ⟨"", false⟩ okEnv).2.head? = some PubAction.loadManifest ∧
    runPublishCommand ⟨"", false⟩ ⟨.ok ""⟩ okEnv = (.error manifestNotFoundMsg, []) :=
  ⟨c8_manifest_loading.1 ⟨"custom.yaml", false⟩ okEnv (by decide),
   c8_manifest_loading.2.1 ⟨"", false⟩ okEnv rfl,
   c8_manifest_loading.2.2.1 ⟨"", false⟩ ⟨.ok ""⟩ okEnv rfl⟩

/-- C9: a copy-start fixup event produces exactly the one start line; a
copy-end event carrying an error produces exactly the one failure line; a
copy-end event without error produces exactly the one completion line; and
an event of any other type produces no output. -/
theorem c9_display_event_lines :
    (∀ s e, displayEvent ⟨.copyImageStart, s, e⟩
      = ["Starting to copy image " ++ s ++ "...\n"]) ∧
    (∀ s e, displayEvent ⟨.copyImageEnd, s, some e⟩
      = ["Failed to copy image " ++ s ++ ": " ++ e ++ "\n"]) ∧
    (∀ s, displayEvent ⟨.copyImageEnd, s, none⟩
      = ["Completed image " ++ s ++ " copy\n"]) ∧
    (∀ s e, displayEvent ⟨.progress, s, e⟩ = []) :=
  ⟨fun _ _ => rfl, fun _ _ => rfl, fun _ => rfl, fun _ _ => rfl⟩

end Porter
